import Mathlib

/-!
A shallow embedding of the nanoflann random-test benchmark harness
(`benchmarkTool/randomTests/nanoflann_testRandom.cpp`) together with proofs
about its behaviour.

Modelling choices:

* C++ `double`/`float` values are modelled by `TVal`: an exact rational for
  finite values, extended with the IEEE-754 special values NaN, `+inf` and
  `-inf` that arise from division by zero.  Finite arithmetic is idealized as
  exact rational arithmetic (rounding is not modelled); NaN propagation and
  the result of dividing by zero follow IEEE-754.
* The C library `rand()` is modelled as a stream `rnd : ℕ → ℕ` together with
  an explicit position, making the PRNG's hidden state explicit: the call at
  position `p` returns `rnd p` and advances the position to `p + 1`.
* Timing is modelled by a `CostModel` oracle giving, for each timed section
  of the program (each `clock()` begin/end pair), the elapsed number of clock
  ticks, and `CLOCKS_PER_SEC` as a rational parameter `cps`.
* The spatial index (`nanoflann.hpp`) is an external collaborator; it is kept
  opaque, recording only the data it was built from.
-/

namespace NanoflannBench

/-- Extended numeric value modelling a C++ floating-point number: an exact
rational for finite values together with the IEEE-754 special values NaN,
`+inf` and `-inf` (the sign of zero is not modelled; finite arithmetic is
idealized as exact rational arithmetic). -/
inductive TVal where
  | nan : TVal
  | pinf : TVal
  | ninf : TVal
  | val : ℚ → TVal
deriving DecidableEq

/-- IEEE-754 addition on `TVal`: NaN propagates, opposite infinities give NaN,
finite values add exactly. -/
def tadd : TVal → TVal → TVal
  | TVal.nan, _ => TVal.nan
  | _, TVal.nan => TVal.nan
  | TVal.pinf, TVal.ninf => TVal.nan
  | TVal.ninf, TVal.pinf => TVal.nan
  | TVal.pinf, _ => TVal.pinf
  | _, TVal.pinf => TVal.pinf
  | TVal.ninf, _ => TVal.ninf
  | _, TVal.ninf => TVal.ninf
  | TVal.val a, TVal.val b => TVal.val (a + b)

/-- IEEE-754 division on `TVal` (sign of zero ignored): NaN propagates,
`inf/inf` is NaN, `finite/inf` is `0`, `inf/finite` is a signed infinity,
and `a / 0` with finite `a` is NaN when `a = 0` and a signed infinity
otherwise. -/
def tdiv : TVal → TVal → TVal
  | TVal.nan, _ => TVal.nan
  | _, TVal.nan => TVal.nan
  | TVal.pinf, TVal.pinf => TVal.nan
  | TVal.pinf, TVal.ninf => TVal.nan
  | TVal.ninf, TVal.pinf => TVal.nan
  | TVal.ninf, TVal.ninf => TVal.nan
  | TVal.pinf, TVal.val b => if b < 0 then TVal.ninf else TVal.pinf
  | TVal.ninf, TVal.val b => if b < 0 then TVal.pinf else TVal.ninf
  | TVal.val _, TVal.pinf => TVal.val 0
  | TVal.val _, TVal.ninf => TVal.val 0
  | TVal.val a, TVal.val b =>
      if b = 0 then (if a = 0 then TVal.nan else if 0 < a then TVal.pinf else TVal.ninf)
      else TVal.val (a / b)

/-- One 3D point of the dataset (`PointCloud::Point` with fields `x, y, z`). -/
structure Point where
  x : ℚ
  y : ℚ
  z : ℚ
deriving DecidableEq, Inhabited

/-- The dataset class `PointCloud`: an ordered sequence of points (`pts`). -/
structure PointCloud where
  pts : List Point
deriving DecidableEq, Inhabited

/-- `PointCloud::kdtree_get_point_count`: the number of data points. -/
def PointCloud.kdtree_get_point_count (c : PointCloud) : ℕ :=
  c.pts.length

/-- `PointCloud::kdtree_distance`: distance between the query vector `p1` and
the stored point with index `idx_p2`, computed as
`d0*d0 + d1*d1 + d2*d2` for the per-axis differences (out-of-range access is
a C++ precondition violation; the model totalizes it with a default point). -/
def PointCloud.kdtree_distance (c : PointCloud) (p1 : Fin 3 → ℚ) (idx_p2 : ℕ) : ℚ :=
  let p := c.pts.getD idx_p2 default
  let d0 := p1 0 - p.x
  let d1 := p1 1 - p.y
  let d2 := p1 2 - p.z
  d0 * d0 + d1 * d1 + d2 * d2

/-- `PointCloud::kdtree_get_pt`: the `dim`'th component of the `idx`'th point;
`dim == 0` gives `x`, `dim == 1` gives `y` and any other `dim` gives `z`. -/
def PointCloud.kdtree_get_pt (c : PointCloud) (idx : ℕ) (dim : ℤ) : ℚ :=
  let p := c.pts.getD idx default
  if dim = 0 then p.x else if dim = 1 then p.y else p.z

/-- One generated coordinate: `max_range * (rand() % 1000) / T(1000)` where
`r` is the value drawn from the random source. -/
def coordOf (max_range : ℚ) (r : ℕ) : ℚ :=
  max_range * ((r % 1000 : ℕ) : ℚ) / 1000

/-- The point-generation loop of `generateRandomPointCloud`: starting at
stream position `pos`, produce `n` points, each consuming three consecutive
draws (for `x`, `y`, `z` in that order), and return the final position. -/
def genPts (max_range : ℚ) (rnd : ℕ → ℕ) : ℕ → ℕ → List Point × ℕ
  | 0, pos => ([], pos)
  | n + 1, pos =>
      let p : Point :=
        ⟨coordOf max_range (rnd pos), coordOf max_range (rnd (pos + 1)),
          coordOf max_range (rnd (pos + 2))⟩
      let rest := genPts max_range rnd n (pos + 3)
      (p :: rest.1, rest.2)

/-- `generateRandomPointCloud(N, max_range)`: resize to `N` points and fill
each coordinate with `max_range * (rand() % 1000) / T(1000)`; the random
source and its position are explicit, and the final position is returned. -/
def generateRandomPointCloud (rnd : ℕ → ℕ) (pos : ℕ) (N : ℕ) (max_range : ℚ) :
    PointCloud × ℕ :=
  let g := genPts max_range rnd N pos
  (⟨g.1⟩, g.2)

/-- Timing oracle for the harness: `buildTicks i r` is the number of clock
ticks elapsed around the index build of repetition `r` at size-index `i`
(the `clock()` end minus begin of lines 99/108), `queryTicks i r j` the ticks
around query `j` of that repetition (lines 120/124), and `cps` the platform
constant `CLOCKS_PER_SEC`. -/
structure CostModel where
  buildTicks : ℕ → ℕ → ℚ
  queryTicks : ℕ → ℕ → ℕ → ℚ
  cps : ℚ

/-- Modelled from the spec: the spatial index built by
`KDTreeSingleIndexAdaptor(3, cloudS, KDTreeSingleIndexAdaptorParams(10))` and
`buildIndex()` lives in `nanoflann.hpp`, which is not part of the harness
source; per §4.2 of the spec the index is an opaque external collaborator,
recorded here as the dimension, the dataset it was built over, and the
leaf-size parameter, never mutated after build. -/
structure KDTreeIndex where
  dim : ℕ
  dataset : PointCloud
  leaf_max_size : ℕ
deriving DecidableEq

/-- Modelled from the spec: index construction over the source cloud with
dimension 3 and leaf size 10, exactly as invoked by `kdtree_demo`. -/
def buildIndex (cloud : PointCloud) : KDTreeIndex :=
  ⟨3, cloud, 10⟩

/-- The query array `query_pt[3] = {cloudT.pts[i].x, cloudT.pts[i].y,
cloudT.pts[i].z}` built for target point `i`. -/
def queryPtOf (c : PointCloud) (i : ℕ) : Fin 3 → ℚ :=
  ![(c.pts.getD i default).x, (c.pts.getD i default).y, (c.pts.getD i default).z]

/-- One k-nearest-neighbour query issued against the index: the query point
array and the requested number of results (`num_results = 1` in the code). -/
structure QueryEvent where
  query_pt : Fin 3 → ℚ
  num_results : ℕ

/-- The query loop of `kdtree_demo` over target-point indices `0, …, N-1` in
order: accumulates `double(end - begin)` ticks into `elapsed_secs` and
records the query issued in each iteration. -/
def queryLoop (cm : CostModel) (i r : ℕ) (cloudT : PointCloud) : ℕ → ℚ × List QueryEvent
  | 0 => (0, [])
  | j + 1 =>
      let acc := queryLoop cm i r cloudT j
      (acc.1 + cm.queryTicks i r j, acc.2 ++ [⟨queryPtOf cloudT j, 1⟩])

/-- The observable result of one `kdtree_demo` call: the two generated clouds,
the index built, the queries issued, the random-stream position afterwards,
and the updated reference parameters `buildTimer` and `queryTimer`. -/
structure DemoResult where
  cloudS : PointCloud
  cloudT : PointCloud
  index : KDTreeIndex
  events : List QueryEvent
  pos : ℕ
  buildTimer : TVal
  queryTimer : TVal

/-- `kdtree_demo<num_t>(N, buildTimer, queryTimer)` at size-index `i`,
repetition `r`: generate `cloudS` then `cloudT` (each of size `N`, with
`max_range` left at its default `10`), build the index over `cloudS`, add
`double(end - begin) / CLOCKS_PER_SEC` to `buildTimer`, run the query loop,
then set `elapsed_secs = elapsed_secs / CLOCKS_PER_SEC` and add
`elapsed_secs / N` to `queryTimer` (the division by `N` is unconditional in
the source). -/
def kdtree_demo (cm : CostModel) (i r : ℕ) (rnd : ℕ → ℕ) (pos : ℕ) (N : ℕ)
    (buildTimer queryTimer : TVal) : DemoResult :=
  let gS := generateRandomPointCloud rnd pos N 10
  let gT := generateRandomPointCloud rnd gS.2 N 10
  let index := buildIndex gS.1
  let buildTimer2 := tadd buildTimer (tdiv (TVal.val (cm.buildTicks i r)) (TVal.val cm.cps))
  let q := queryLoop cm i r gT.1 N
  let elapsed_secs := tdiv (TVal.val q.1) (TVal.val cm.cps)
  let queryTimer2 := tadd queryTimer (tdiv elapsed_secs (TVal.val (N : ℚ)))
  ⟨gS.1, gT.1, index, q.2, gT.2, buildTimer2, queryTimer2⟩

/-- The repetition loop of `main` for size-index `i`: starting from
`buildTimer = 0, queryTimer = 0`, run `kdtree_demo` for repetitions
`0, …, R-1` in order, threading the random-stream position. -/
def repLoop (cm : CostModel) (i : ℕ) (rnd : ℕ → ℕ) (N : ℕ) : ℕ → ℕ → TVal × TVal × ℕ
  | 0, pos => (TVal.val 0, TVal.val 0, pos)
  | r + 1, pos =>
      let prev := repLoop cm i rnd N r pos
      let d := kdtree_demo cm i r rnd prev.2.2 N prev.1 prev.2.1
      (d.buildTimer, d.queryTimer, d.pos)

/-- The outer loop of `main` over the configured `(Ns[i], nReps[i])` pairs:
for each size run the repetitions, divide both accumulators by `nReps[i]`,
and push the two averages onto `buildTime` and `queryTime`. -/
def runConfig (cm : CostModel) (rnd : ℕ → ℕ) :
    List (ℕ × ℕ) → ℕ → ℕ → List TVal × List TVal × ℕ
  | [], _, pos => ([], [], pos)
  | (N, reps) :: rest, i, pos =>
      let acc := repLoop cm i rnd N reps pos
      let bAvg := tdiv acc.1 (TVal.val (reps : ℚ))
      let qAvg := tdiv acc.2.1 (TVal.val (reps : ℚ))
      let tail := runConfig cm rnd rest (i + 1) acc.2.2
      (bAvg :: tail.1, qAvg :: tail.2.1, tail.2.2)

/-- The configuration hard-coded in `main`: the arrays `Ns` and `nReps`
(index-aligned, `plotCount = 10`). -/
def mainConfig : List (ℕ × ℕ) :=
  [(1000, 1), (5000, 1), (10000, 1), (50000, 1), (100000, 1),
   (200000, 1), (500000, 1), (700000, 1), (1000000, 1), (2000000, 1)]

/-- The reporting loops of `main` (lines 155-161): for each value of
`buildTime` print it followed by a space, then a newline; then the same for
`queryTime`.  `render` models `operator<<(ostream, double)`, the
platform's decimal rendering of one value. -/
def reportChars (render : TVal → List Char) (b q : List TVal) : List Char :=
  (b.map (fun v => render v ++ [' '])).flatten ++ ['\n'] ++
    (q.map (fun v => render v ++ [' '])).flatten ++ ['\n']

/-- The whole program `main`: run the configured sweep from stream position 0,
print the two series, and return exit status 0. -/
def mainProg (cm : CostModel) (rnd : ℕ → ℕ) (render : TVal → List Char) :
    List Char × ℤ :=
  let res := runConfig cm rnd mainConfig 0 0
  (reportChars render res.1 res.2.1, 0)

/-- Splitting a character list at every space, keeping empty segments
(the segments between consecutive separators). -/
def splitSp : List Char → List (List Char)
  | [] => [[]]
  | c :: cs =>
      let r := splitSp cs
      if c = ' ' then [] :: r else (c :: r.headI) :: r.tail

/-- The space-separated tokens of a line: the nonempty segments. -/
def tokens (l : List Char) : List (List Char) :=
  (splitSp l).filter (fun t => t ≠ [])

/-- Sum of a list of `TVal`s by repeated accumulation starting from `0`,
exactly the shape produced by the `+=` accumulation loops. -/
def tsumList (l : List TVal) : TVal :=
  l.foldl tadd (TVal.val 0)

/-- Spec-side formula (§4.3b): the build interval of repetition `r` at
size-index `i`, in seconds: elapsed ticks divided by `CLOCKS_PER_SEC`. -/
def buildIntervalSecs (cm : CostModel) (i r : ℕ) : TVal :=
  tdiv (TVal.val (cm.buildTicks i r)) (TVal.val cm.cps)

/-- Spec-side formula (§4.3b): the amortized per-query time of repetition `r`
at size-index `i` and size `N`, in seconds: the total of the individually
timed query ticks, divided by `CLOCKS_PER_SEC`, divided by `N`. -/
def amortizedQuerySecs (cm : CostModel) (i r N : ℕ) : TVal :=
  tdiv (tdiv (TVal.val (((List.range N).map (cm.queryTicks i r)).sum)) (TVal.val cm.cps))
    (TVal.val (N : ℚ))

/-- A concrete cost model in which every timed section takes zero ticks and
`CLOCKS_PER_SEC = 1000000`. -/
def cmZero : CostModel :=
  ⟨fun _ _ => 0, fun _ _ _ => 0, 1000000⟩

/-- A concrete cost model with constant latencies: every build takes 2
seconds, every query 3 seconds, with `CLOCKS_PER_SEC = 1`. -/
def cmConst : CostModel :=
  ⟨fun _ _ => 2, fun _ _ _ => 3, 1⟩

/-- A degenerate rendering of values used to instantiate reporter theorems:
every value prints as the single character `0`. -/
def renderZero : TVal → List Char :=
  fun _ => [('0' : Char)]

theorem tadd_nan_left (x : TVal) : tadd TVal.nan x = TVal.nan := by
  cases x <;> rfl

theorem tadd_nan_right (x : TVal) : tadd x TVal.nan = TVal.nan := by
  cases x <;> rfl

theorem tadd_val_val (a b : ℚ) : tadd (TVal.val a) (TVal.val b) = TVal.val (a + b) := rfl

theorem tdiv_nan_left (x : TVal) : tdiv TVal.nan x = TVal.nan := by
  cases x <;> rfl

theorem tdiv_val_val (a b : ℚ) (hb : b ≠ 0) :
    tdiv (TVal.val a) (TVal.val b) = TVal.val (a / b) := by
  simp [tdiv, hb]

theorem tdiv_zero_zero : tdiv (TVal.val 0) (TVal.val 0) = TVal.nan := by
  simp [tdiv]

/-- C7: for every cloud, query vector and in-range point index, the dataset's
distance function returns the squared Euclidean distance: the sum over the
three axes of the squared differences between the query vector's components
and the stored point's coordinates (as exposed by the coordinate accessor),
with no square root taken. -/
theorem kdtree_distance_squared_euclidean (c : PointCloud) (p1 : Fin 3 → ℚ) (idx : ℕ)
    (h : idx < c.kdtree_get_point_count) :
    c.kdtree_distance p1 idx =
      ∑ d : Fin 3, (p1 d - c.kdtree_get_pt idx ((d : ℕ) : ℤ)) ^ 2 := by
  simp only [Fin.sum_univ_three, PointCloud.kdtree_distance, PointCloud.kdtree_get_pt]
  norm_num
  ring

/-- Witness for `kdtree_distance_squared_euclidean` at a concrete cloud. -/
theorem kdtree_distance_squared_euclidean_witness :
    0 < (PointCloud.mk [⟨1, 2, 3⟩]).kdtree_get_point_count ∧
      (PointCloud.mk [⟨1, 2, 3⟩]).kdtree_distance ![0, 0, 0] 0 =
        ∑ d : Fin 3,
          ((![0, 0, 0] : Fin 3 → ℚ) d - (PointCloud.mk [⟨1, 2, 3⟩]).kdtree_get_pt 0 ((d : ℕ) : ℤ)) ^ 2 :=
  ⟨by decide,
    kdtree_distance_squared_euclidean (PointCloud.mk [⟨1, 2, 3⟩]) ![0, 0, 0] 0 (by decide)⟩

/-- C9: for every cloud, in-range point index and integer dimension argument,
the coordinate accessor returns the `x` coordinate for `dim = 0`, the `y`
coordinate for `dim = 1`, and the `z` coordinate for every other `dim`
(including out-of-range dimensions such as `3` or negative values); being a
total function it never signals an error for an invalid dimension. -/
theorem kdtree_get_pt_dim_cases (c : PointCloud) (idx : ℕ)
    (h : idx < c.kdtree_get_point_count) :
    c.kdtree_get_pt idx 0 = (c.pts.get ⟨idx, h⟩).x ∧
      c.kdtree_get_pt idx 1 = (c.pts.get ⟨idx, h⟩).y ∧
      ∀ dim : ℤ, dim ≠ 0 → dim ≠ 1 → c.kdtree_get_pt idx dim = (c.pts.get ⟨idx, h⟩).z := by
  have h' : idx < c.pts.length := h
  refine ⟨?_, ?_, ?_⟩
  · simp [PointCloud.kdtree_get_pt, List.getElem?_eq_getElem h']
  · simp [PointCloud.kdtree_get_pt, List.getElem?_eq_getElem h']
  · intro dim h0 h1
    simp [PointCloud.kdtree_get_pt, List.getElem?_eq_getElem h', h0, h1]

/-- Witness for `kdtree_get_pt_dim_cases` at a concrete cloud, with the
out-of-range dimensions `3` and `-1`. -/
theorem kdtree_get_pt_dim_cases_witness :
    0 < (PointCloud.mk [⟨5, 6, 7⟩]).kdtree_get_point_count ∧
      (PointCloud.mk [⟨5, 6, 7⟩]).kdtree_get_pt 0 3 = 7 ∧
      (PointCloud.mk [⟨5, 6, 7⟩]).kdtree_get_pt 0 (-1) = 7 :=
  ⟨by decide,
    (kdtree_get_pt_dim_cases (PointCloud.mk [⟨5, 6, 7⟩]) 0 (by decide)).2.2 3
      (by decide) (by decide),
    (kdtree_get_pt_dim_cases (PointCloud.mk [⟨5, 6, 7⟩]) 0 (by decide)).2.2 (-1)
      (by decide) (by decide)⟩

theorem coordOf_exists (m : ℚ) (r : ℕ) : ∃ k : ℕ, k < 1000 ∧ coordOf m r = m * k / 1000 :=
  ⟨r % 1000, Nat.mod_lt r (by norm_num), rfl⟩

theorem coordOf_nonneg (m : ℚ) (hm : 0 < m) (r : ℕ) : 0 ≤ coordOf m r := by
  unfold coordOf
  positivity

theorem coordOf_lt (m : ℚ) (hm : 0 < m) (r : ℕ) : coordOf m r < m := by
  unfold coordOf
  rw [div_lt_iff (by norm_num : (0 : ℚ) < 1000)]
  have hk : ((r % 1000 : ℕ) : ℚ) < 1000 := by
    exact_mod_cast Nat.mod_lt r (by norm_num)
  exact mul_lt_mul_of_pos_left hk hm

theorem coordOf_nonpos (m : ℚ) (hm : m ≤ 0) (r : ℕ) : coordOf m r ≤ 0 := by
  unfold coordOf
  have h1 : m * ((r % 1000 : ℕ) : ℚ) ≤ 0 :=
    mul_nonpos_iff.mpr (Or.inr ⟨hm, by positivity⟩)
  exact div_nonpos_iff.mpr (Or.inr ⟨h1, by norm_num⟩)

theorem genPts_length (m : ℚ) (rnd : ℕ → ℕ) :
    ∀ (n pos : ℕ), (genPts m rnd n pos).1.length = n := by
  intro n
  induction n with
  | zero => intro pos; simp [genPts]
  | succ n ih => intro pos; simp [genPts, ih]

theorem genPts_snd (m : ℚ) (rnd : ℕ → ℕ) :
    ∀ (n pos : ℕ), (genPts m rnd n pos).2 = pos + 3 * n := by
  intro n
  induction n with
  | zero => intro pos; simp [genPts]
  | succ n ih =>
      intro pos
      simp only [genPts]
      rw [ih]
      omega

theorem genPts_mem (m : ℚ) (rnd : ℕ → ℕ) :
    ∀ (n pos : ℕ) (p : Point), p ∈ (genPts m rnd n pos).1 →
      ∃ a b c : ℕ, p = ⟨coordOf m a, coordOf m b, coordOf m c⟩ := by
  intro n
  induction n with
  | zero => intro pos p hp; simp [genPts] at hp
  | succ n ih =>
      intro pos p hp
      simp only [genPts, List.mem_cons] at hp
      rcases hp with h | h
      · exact ⟨rnd pos, rnd (pos + 1), rnd (pos + 2), h⟩
      · exact ih (pos + 3) p h

theorem genPts_fst_map (m : ℚ) (rnd : ℕ → ℕ) :
    ∀ (n pos : ℕ), (genPts m rnd n pos).1 =
      (List.range n).map (fun i =>
        (⟨coordOf m (rnd (pos + 3 * i)), coordOf m (rnd (pos + 3 * i + 1)),
          coordOf m (rnd (pos + 3 * i + 2))⟩ : Point)) := by
  intro n
  induction n with
  | zero => intro pos; simp [genPts]
  | succ n ih =>
      intro pos
      rw [List.range_succ_eq_map]
      simp only [genPts, List.map_cons, List.map_map, ih]
      refine List.cons_eq_cons.mpr ⟨by norm_num, ?_⟩
      apply List.map_congr_left
      intro i _
      have e1 : pos + 3 + 3 * i = pos + 3 * (i + 1) := by omega
      have e2 : pos + 3 + 3 * i + 1 = pos + 3 * (i + 1) + 1 := by omega
      have e3 : pos + 3 + 3 * i + 2 = pos + 3 * (i + 1) + 2 := by omega
      simp [Function.comp, Nat.succ_eq_add_one, e1, e2, e3]

/-- C3: for every requested size `n ≥ 0` and positive `valueRange`, the
generator returns a cloud of exactly `n` points in which every coordinate of
every point lies in `[0, valueRange)` and is one of the 1000 equally spaced
values `valueRange * k / 1000`, `0 ≤ k < 1000`. -/
theorem generateRandomPointCloud_range_spec (rnd : ℕ → ℕ) (pos N : ℕ) (range : ℚ)
    (h : 0 < range) :
    ((generateRandomPointCloud rnd pos N range).1).pts.length = N ∧
      ∀ p ∈ ((generateRandomPointCloud rnd pos N range).1).pts,
        ((∃ k : ℕ, k < 1000 ∧ p.x = range * k / 1000) ∧ 0 ≤ p.x ∧ p.x < range) ∧
          ((∃ k : ℕ, k < 1000 ∧ p.y = range * k / 1000) ∧ 0 ≤ p.y ∧ p.y < range) ∧
          ((∃ k : ℕ, k < 1000 ∧ p.z = range * k / 1000) ∧ 0 ≤ p.z ∧ p.z < range) := by
  constructor
  · exact genPts_length range rnd N pos
  · intro p hp
    obtain ⟨a, b, c, rfl⟩ := genPts_mem range rnd N pos p hp
    exact ⟨⟨coordOf_exists range a, coordOf_nonneg range h a, coordOf_lt range h a⟩,
      ⟨coordOf_exists range b, coordOf_nonneg range h b, coordOf_lt range h b⟩,
      ⟨coordOf_exists range c, coordOf_nonneg range h c, coordOf_lt range h c⟩⟩

/-- Witness for `generateRandomPointCloud_range_spec` at a concrete input. -/
theorem generateRandomPointCloud_range_spec_witness :
    (0 : ℚ) < 1 ∧ ((generateRandomPointCloud (fun _ => 0) 0 1 1).1).pts.length = 1 :=
  ⟨by norm_num, (generateRandomPointCloud_range_spec (fun _ => 0) 0 1 1 (by norm_num)).1⟩

/-- C6 counterexample: at `valueRange = -1 ≤ 0` the generator does not fail:
the source contains no validation of `max_range`, so it returns an ordinary
cloud with the requested number of points (all coordinates `-437/1000` here),
refuting the claim that it fails with an invalid-argument condition instead
of returning a cloud. -/
theorem generateRandomPointCloud_no_validation :
    (generateRandomPointCloud (fun _ => 437) 0 1 (-1)).1 =
      PointCloud.mk [⟨-(437 / 1000), -(437 / 1000), -(437 / 1000)⟩] ∧
      ((generateRandomPointCloud (fun _ => 437) 0 1 (-1)).1).pts.length = 1 := by
  constructor
  · show PointCloud.mk [⟨coordOf (-1) 437, coordOf (-1) 437, coordOf (-1) 437⟩] = _
    norm_num [coordOf]
  · rfl

/-- C6 amended: the generator performs no input validation: for
`valueRange ≤ 0` it does not fail, returning a cloud of exactly `n` points
whose coordinates are all `≤ 0` (hence outside every valid range); for valid
inputs it likewise never fails (it is a total function). -/
theorem generateRandomPointCloud_nonpositive_range (rnd : ℕ → ℕ) (pos N : ℕ) (range : ℚ)
    (h : range ≤ 0) :
    ((generateRandomPointCloud rnd pos N range).1).pts.length = N ∧
      ∀ p ∈ ((generateRandomPointCloud rnd pos N range).1).pts,
        p.x ≤ 0 ∧ p.y ≤ 0 ∧ p.z ≤ 0 := by
  constructor
  · exact genPts_length range rnd N pos
  · intro p hp
    obtain ⟨a, b, c, rfl⟩ := genPts_mem range rnd N pos p hp
    exact ⟨coordOf_nonpos range h a, coordOf_nonpos range h b, coordOf_nonpos range h c⟩

/-- Witness for `generateRandomPointCloud_nonpositive_range` at
`valueRange = -1`, `n = 2`. -/
theorem generateRandomPointCloud_nonpositive_range_witness :
    (-1 : ℚ) ≤ 0 ∧ ((generateRandomPointCloud (fun _ => 437) 0 2 (-1)).1).pts.length = 2 :=
  ⟨by norm_num, (generateRandomPointCloud_nonpositive_range (fun _ => 437) 0 2 (-1) (by norm_num)).1⟩

/-- C10: generating a cloud of size `n` consumes exactly `3 * n` draws from
the random source (the final position is `pos + 3 * n`), assigned in
`x, y, z` order for each point in ascending index order (point `i` uses draws
`pos + 3i`, `pos + 3i + 1`, `pos + 3i + 2`); consequently two generator runs
supplied with identical draw sequences on that window produce identical
clouds — the generator is deterministic given the random source and keeps no
other hidden state. -/
theorem generateRandomPointCloud_draw_usage (rnd : ℕ → ℕ) (pos n : ℕ) (range : ℚ) :
    (generateRandomPointCloud rnd pos n range).2 = pos + 3 * n ∧
      ((generateRandomPointCloud rnd pos n range).1).pts =
        (List.range n).map (fun i =>
          (⟨coordOf range (rnd (pos + 3 * i)), coordOf range (rnd (pos + 3 * i + 1)),
            coordOf range (rnd (pos + 3 * i + 2))⟩ : Point)) ∧
      ∀ rnd2 : ℕ → ℕ, (∀ k, k < 3 * n → rnd (pos + k) = rnd2 (pos + k)) →
        generateRandomPointCloud rnd pos n range = generateRandomPointCloud rnd2 pos n range := by
  refine ⟨genPts_snd range rnd n pos, genPts_fst_map range rnd n pos, ?_⟩
  intro rnd2 hagree
  have h1 : (genPts range rnd n pos).1 = (genPts range rnd2 n pos).1 := by
    rw [genPts_fst_map, genPts_fst_map]
    apply List.map_congr_left
    intro i hi
    rw [List.mem_range] at hi
    have e1 : rnd (pos + 3 * i) = rnd2 (pos + 3 * i) := hagree (3 * i) (by omega)
    have e2 : rnd (pos + 3 * i + 1) = rnd2 (pos + 3 * i + 1) := by
      have := hagree (3 * i + 1) (by omega)
      simpa [Nat.add_assoc] using this
    have e3 : rnd (pos + 3 * i + 2) = rnd2 (pos + 3 * i + 2) := by
      have := hagree (3 * i + 2) (by omega)
      simpa [Nat.add_assoc] using this
    rw [e1, e2, e3]
  have h2 : (genPts range rnd n pos).2 = (genPts range rnd2 n pos).2 := by
    rw [genPts_snd, genPts_snd]
  simp [generateRandomPointCloud, h1, h2]

/-- Witness for `generateRandomPointCloud_draw_usage`: the inner agreement
hypothesis discharged at a concrete stream. -/
theorem generateRandomPointCloud_draw_usage_witness :
    (∀ k, k < 3 * 2 → (fun _ => (7 : ℕ)) (0 + k) = (fun _ => (7 : ℕ)) (0 + k)) ∧
      generateRandomPointCloud (fun _ => (7 : ℕ)) 0 2 10 =
        generateRandomPointCloud (fun _ => (7 : ℕ)) 0 2 10 :=
  ⟨fun _ _ => rfl,
    (generateRandomPointCloud_draw_usage (fun _ => (7 : ℕ)) 0 2 10).2.2 (fun _ => (7 : ℕ))
      (fun _ _ => rfl)⟩

theorem foldl_tadd_val {α : Type} (f : α → ℚ) :
    ∀ (l : List α) (a : ℚ),
      ((l.map fun x => TVal.val (f x)).foldl tadd (TVal.val a)) = TVal.val (a + (l.map f).sum) := by
  intro l
  induction l with
  | nil => intro a; simp
  | cons x xs ih =>
      intro a
      simp only [List.map_cons, List.foldl_cons, tadd, ih]
      rw [List.sum_cons]
      ring_nf

theorem tsumList_map_val {α : Type} (f : α → ℚ) (l : List α) :
    tsumList (l.map fun x => TVal.val (f x)) = TVal.val ((l.map f).sum) := by
  rw [tsumList, foldl_tadd_val, zero_add]

theorem tsumList_append_single (l : List TVal) (x : TVal) :
    tsumList (l ++ [x]) = tadd (tsumList l) x := by
  simp [tsumList, List.foldl_append]

theorem foldl_tadd_nan : ∀ l : List TVal, l.foldl tadd TVal.nan = TVal.nan := by
  intro l
  induction l with
  | nil => rfl
  | cons x xs ih => simp only [List.foldl_cons, tadd_nan_left, ih]

theorem tsumList_all_nan (l : List TVal) (hne : l ≠ [])
    (hall : ∀ x ∈ l, x = TVal.nan) : tsumList l = TVal.nan := by
  cases l with
  | nil => simp at hne
  | cons x xs =>
      have hx := hall x (by simp)
      simp only [tsumList, List.foldl_cons, hx, tadd_nan_right]
      exact foldl_tadd_nan xs

theorem sum_map_constant (B : ℚ) :
    ∀ n : ℕ, ((List.range n).map fun _ => B).sum = n * B := by
  intro n
  induction n with
  | zero => simp
  | succ n ih =>
      rw [List.range_succ]
      simp [ih]
      ring

theorem queryLoop_spec (cm : CostModel) (i r : ℕ) (c : PointCloud) :
    ∀ N : ℕ, queryLoop cm i r c N =
      (((List.range N).map (cm.queryTicks i r)).sum,
        (List.range N).map fun j => (⟨queryPtOf c j, 1⟩ : QueryEvent)) := by
  intro N
  induction N with
  | zero => simp [queryLoop]
  | succ N ih => simp [queryLoop, ih, List.range_succ]

theorem kdtree_demo_cloudS (cm : CostModel) (i r : ℕ) (rnd : ℕ → ℕ) (pos N : ℕ)
    (b q : TVal) :
    (kdtree_demo cm i r rnd pos N b q).cloudS = (generateRandomPointCloud rnd pos N 10).1 := rfl

theorem kdtree_demo_cloudT (cm : CostModel) (i r : ℕ) (rnd : ℕ → ℕ) (pos N : ℕ)
    (b q : TVal) :
    (kdtree_demo cm i r rnd pos N b q).cloudT =
      (generateRandomPointCloud rnd (pos + 3 * N) N 10).1 := by
  simp only [kdtree_demo]
  rw [show (generateRandomPointCloud rnd pos N 10).2 = pos + 3 * N from genPts_snd 10 rnd N pos]

theorem kdtree_demo_index (cm : CostModel) (i r : ℕ) (rnd : ℕ → ℕ) (pos N : ℕ)
    (b q : TVal) :
    (kdtree_demo cm i r rnd pos N b q).index =
      buildIndex (kdtree_demo cm i r rnd pos N b q).cloudS := rfl

theorem kdtree_demo_events (cm : CostModel) (i r : ℕ) (rnd : ℕ → ℕ) (pos N : ℕ)
    (b q : TVal) :
    (kdtree_demo cm i r rnd pos N b q).events =
      (List.range N).map fun j =>
        (⟨queryPtOf (kdtree_demo cm i r rnd pos N b q).cloudT j, 1⟩ : QueryEvent) := by
  simp only [kdtree_demo, queryLoop_spec]

theorem kdtree_demo_buildTimer (cm : CostModel) (i r : ℕ) (rnd : ℕ → ℕ) (pos N : ℕ)
    (b q : TVal) :
    (kdtree_demo cm i r rnd pos N b q).buildTimer = tadd b (buildIntervalSecs cm i r) := rfl

theorem kdtree_demo_queryTimer (cm : CostModel) (i r : ℕ) (rnd : ℕ → ℕ) (pos N : ℕ)
    (b q : TVal) :
    (kdtree_demo cm i r rnd pos N b q).queryTimer = tadd q (amortizedQuerySecs cm i r N) := by
  simp only [kdtree_demo, amortizedQuerySecs, queryLoop_spec]

theorem kdtree_demo_pos (cm : CostModel) (i r : ℕ) (rnd : ℕ → ℕ) (pos N : ℕ)
    (b q : TVal) :
    (kdtree_demo cm i r rnd pos N b q).pos = pos + 6 * N := by
  simp only [kdtree_demo, generateRandomPointCloud]
  rw [genPts_snd, genPts_snd]
  omega

theorem repLoop_spec (cm : CostModel) (i : ℕ) (rnd : ℕ → ℕ) (N : ℕ) :
    ∀ (R pos : ℕ),
      (repLoop cm i rnd N R pos).1 =
          tsumList ((List.range R).map (buildIntervalSecs cm i)) ∧
        (repLoop cm i rnd N R pos).2.1 =
          tsumList ((List.range R).map fun r => amortizedQuerySecs cm i r N) ∧
        (repLoop cm i rnd N R pos).2.2 = pos + 6 * N * R := by
  intro R
  induction R with
  | zero => intro pos; refine ⟨rfl, rfl, by simp [repLoop]⟩
  | succ R ih =>
      intro pos
      obtain ⟨ihb, ihq, ihp⟩ := ih pos
      simp only [repLoop]
      refine ⟨?_, ?_, ?_⟩
      · rw [kdtree_demo_buildTimer, ihb, List.range_succ, List.map_append, List.map_cons,
          List.map_nil, tsumList_append_single]
      · rw [kdtree_demo_queryTimer, ihq, List.range_succ, List.map_append, List.map_cons,
          List.map_nil, tsumList_append_single]
      · rw [kdtree_demo_pos, ihp]
        ring

theorem runConfig_lengths (cm : CostModel) (rnd : ℕ → ℕ) :
    ∀ (config : List (ℕ × ℕ)) (i0 pos : ℕ),
      (runConfig cm rnd config i0 pos).1.length = config.length ∧
        (runConfig cm rnd config i0 pos).2.1.length = config.length := by
  intro config
  induction config with
  | nil => intro i0 pos; simp [runConfig]
  | cons hd tl ih =>
      intro i0 pos
      obtain ⟨N, reps⟩ := hd
      simp [runConfig, (ih (i0 + 1) _).1, (ih (i0 + 1) _).2]

theorem runConfig_getD (cm : CostModel) (rnd : ℕ → ℕ) :
    ∀ (config : List (ℕ × ℕ)) (i0 pos k : ℕ), k < config.length →
      (runConfig cm rnd config i0 pos).1.getD k TVal.nan =
          tdiv (tsumList ((List.range (config.getD k (0, 0)).2).map
              (buildIntervalSecs cm (i0 + k))))
            (TVal.val ((config.getD k (0, 0)).2 : ℚ)) ∧
        (runConfig cm rnd config i0 pos).2.1.getD k TVal.nan =
          tdiv (tsumList ((List.range (config.getD k (0, 0)).2).map
              fun r => amortizedQuerySecs cm (i0 + k) r (config.getD k (0, 0)).1))
            (TVal.val ((config.getD k (0, 0)).2 : ℚ)) := by
  intro config
  induction config with
  | nil => intro i0 pos k hk; simp at hk
  | cons hd tl ih =>
      intro i0 pos k hk
      obtain ⟨N, reps⟩ := hd
      cases k with
      | zero =>
          simp only [runConfig, List.getD_cons_zero, Nat.add_zero]
          obtain ⟨hb, hq, _⟩ := repLoop_spec cm i0 rnd N reps pos
          rw [hb, hq]
          exact ⟨rfl, rfl⟩
      | succ k =>
          simp only [runConfig, List.getD_cons_succ]
          have hk' : k < tl.length := by simpa using hk
          have := ih (i0 + 1) (repLoop cm i0 rnd N reps pos).2.2 k hk'
          rw [show i0 + 1 + k = i0 + (k + 1) from by omega] at this
          exact this

/-- C1 counterexample: with a zero-cost model, a size list `[0]` and one
repetition, the reported query time for the zero-size entry is NaN, not 0:
the source divides the accumulated query time by `N = sizes[0] = 0`
unconditionally (line 128, `queryTimer += elapsed_secs/N`), so the
per-repetition division is NOT skipped and `queryTimes[0] ≠ 0`. -/
theorem runConfig_zero_size_counterexample :
    (runConfig cmZero (fun _ => 0) [(0, 1)] 0 0).2.1 = [TVal.nan] ∧
      TVal.nan ≠ TVal.val 0 := by
  constructor
  · obtain ⟨a, ha⟩ :=
      List.length_eq_one.mp (runConfig_lengths cmZero (fun _ => 0) [(0, 1)] 0 0).2
    have h := (runConfig_getD cmZero (fun _ => 0) [(0, 1)] 0 0 0 (by norm_num)).2
    rw [ha] at h ⊢
    simp only [List.getD_cons_zero] at h
    have hamort : amortizedQuerySecs cmZero (0 + 0) 0 0 = TVal.nan := by
      unfold amortizedQuerySecs
      simp only [List.range_zero, List.map_nil, List.sum_nil, Nat.cast_zero]
      rw [tdiv_val_val 0 cmZero.cps (by norm_num [cmZero]), zero_div, tdiv_zero_zero]
    rw [show List.range 1 = [0] from rfl, List.map_cons, List.map_nil, hamort] at h
    have hsum : tsumList [TVal.nan] = TVal.nan := by
      simp [tsumList, tadd_nan_right]
    rw [hsum, tdiv_nan_left] at h
    rw [h]
  · decide

/-- C1 amended: for every configured size index `i` with `sizes[i] = 0`, the
run still completes (the build over the empty cloud is performed and the
output series have full length), but the amortization step is not skipped:
the code divides the zero accumulated query time by `sizes[i] = 0`, an IEEE
`0/0` producing NaN, so `queryTimes[i]` is reported as NaN rather than 0. -/
theorem runConfig_zero_size_nan (cm : CostModel) (rnd : ℕ → ℕ) (config : List (ℕ × ℕ))
    (i : ℕ) (hi : i < config.length) (h0 : (config.getD i (0, 0)).1 = 0) :
    (runConfig cm rnd config 0 0).1.length = config.length ∧
      (runConfig cm rnd config 0 0).2.1.getD i TVal.nan = TVal.nan := by
  refine ⟨(runConfig_lengths cm rnd config 0 0).1, ?_⟩
  rw [(runConfig_getD cm rnd config 0 0 i hi).2, h0]
  have hamort : ∀ r : ℕ, amortizedQuerySecs cm (0 + i) r 0 = TVal.nan := by
    intro r
    unfold amortizedQuerySecs
    simp only [List.range_zero, List.map_nil, List.sum_nil, Nat.cast_zero]
    by_cases hc : cm.cps = 0
    · rw [hc, tdiv_zero_zero, tdiv_nan_left]
    · rw [tdiv_val_val 0 cm.cps hc, zero_div, tdiv_zero_zero]
  rcases Nat.eq_zero_or_pos (config.getD i (0, 0)).2 with hR | hR
  · rw [hR]
    simp only [List.range_zero, List.map_nil, Nat.cast_zero]
    show tdiv (TVal.val 0) (TVal.val 0) = TVal.nan
    exact tdiv_zero_zero
  · have hne : ((List.range (config.getD i (0, 0)).2).map
        fun r => amortizedQuerySecs cm (0 + i) r 0) ≠ [] := by
      simp only [ne_eq, List.map_eq_nil_iff, List.range_eq_nil]
      omega
    have hall : ∀ x ∈ (List.range (config.getD i (0, 0)).2).map
        fun r => amortizedQuerySecs cm (0 + i) r 0, x = TVal.nan := by
      intro x hx
      obtain ⟨r, _, rfl⟩ := List.mem_map.mp hx
      exact hamort r
    rw [tsumList_all_nan _ hne hall, tdiv_nan_left]

/-- Witness for `runConfig_zero_size_nan` at a concrete zero-size config. -/
theorem runConfig_zero_size_nan_witness :
    (0 : ℕ) < ([((0 : ℕ), (2 : ℕ))] : List (ℕ × ℕ)).length ∧
      (([((0 : ℕ), (2 : ℕ))] : List (ℕ × ℕ)).getD 0 (0, 0)).1 = 0 ∧
      (runConfig cmZero (fun _ => 0) [(0, 2)] 0 0).2.1.getD 0 TVal.nan = TVal.nan :=
  ⟨by decide, by decide,
    (runConfig_zero_size_nan cmZero (fun _ => 0) [(0, 2)] 0 (by decide) (by decide)).2⟩

/-- C4: for every size index `i`, `buildTimes[i]` is the sum of the
`repetitions[i]` per-repetition build intervals divided by `repetitions[i]`,
and `queryTimes[i]` is the sum of the per-repetition amortized query times
divided by `repetitions[i]`; consequently, with a stubbed cost model of
constant build and per-query latencies (`B` seconds per build, `Q` seconds
per query) and positive size and repetition count, `buildTimes[i] = B` and
`queryTimes[i] = Q`. -/
theorem runConfig_aggregation (cm : CostModel) (rnd : ℕ → ℕ) (config : List (ℕ × ℕ))
    (i : ℕ) (hi : i < config.length) :
    ((runConfig cm rnd config 0 0).1.getD i TVal.nan =
        tdiv (tsumList ((List.range (config.getD i (0, 0)).2).map (buildIntervalSecs cm i)))
          (TVal.val ((config.getD i (0, 0)).2 : ℚ)) ∧
      (runConfig cm rnd config 0 0).2.1.getD i TVal.nan =
        tdiv (tsumList ((List.range (config.getD i (0, 0)).2).map
            fun r => amortizedQuerySecs cm i r (config.getD i (0, 0)).1))
          (TVal.val ((config.getD i (0, 0)).2 : ℚ))) ∧
      ∀ B Q : ℚ, cm.cps ≠ 0 →
        (∀ r, cm.buildTicks i r = B * cm.cps) →
        (∀ r j, cm.queryTicks i r j = Q * cm.cps) →
        0 < (config.getD i (0, 0)).1 → 0 < (config.getD i (0, 0)).2 →
        (runConfig cm rnd config 0 0).1.getD i TVal.nan = TVal.val B ∧
          (runConfig cm rnd config 0 0).2.1.getD i TVal.nan = TVal.val Q := by
  have hmain := runConfig_getD cm rnd config 0 0 i hi
  rw [Nat.zero_add] at hmain
  refine ⟨hmain, ?_⟩
  intro B Q hcps hB hQ hN hR
  set N := (config.getD i (0, 0)).1 with hNdef
  set R := (config.getD i (0, 0)).2 with hRdef
  have hRQ : ((R : ℚ)) ≠ 0 := Nat.cast_ne_zero.mpr (by omega)
  constructor
  · rw [hmain.1]
    have hb : ∀ r, buildIntervalSecs cm i r = TVal.val B := by
      intro r
      rw [buildIntervalSecs, hB r, tdiv_val_val _ _ hcps, mul_div_cancel_right₀ B hcps]
    have : (List.range R).map (buildIntervalSecs cm i) =
        (List.range R).map fun _ => TVal.val B := List.map_congr_left fun r _ => hb r
    rw [this, show ((List.range R).map fun _ => TVal.val B) =
        (List.range R).map fun _ => TVal.val ((fun _ : ℕ => B) 0) from rfl]
    rw [show ((List.range R).map fun _ : ℕ => TVal.val ((fun _ : ℕ => B) 0)) =
        (List.range R).map fun x : ℕ => TVal.val ((fun _ : ℕ => B) x) from rfl]
    rw [tsumList_map_val (fun _ : ℕ => B) (List.range R), sum_map_constant B R,
      tdiv_val_val _ _ hRQ, mul_div_cancel_left₀ B hRQ]
  · rw [hmain.2]
    have hq : ∀ r, amortizedQuerySecs cm i r N = TVal.val Q := by
      intro r
      rw [amortizedQuerySecs]
      have : (List.range N).map (cm.queryTicks i r) = (List.range N).map fun _ => Q * cm.cps :=
        List.map_congr_left fun j _ => hQ r j
      rw [this, sum_map_constant (Q * cm.cps) N, tdiv_val_val _ _ hcps]
      have hNQ : ((N : ℚ)) ≠ 0 := Nat.cast_ne_zero.mpr (by omega)
      rw [show (N : ℚ) * (Q * cm.cps) / cm.cps = (N : ℚ) * Q from by
        field_simp
        ring]
      rw [tdiv_val_val _ _ hNQ, mul_div_cancel_left₀ Q hNQ]
    have : ((List.range R).map fun r => amortizedQuerySecs cm i r N) =
        (List.range R).map fun _ => TVal.val Q := List.map_congr_left fun r _ => hq r
    rw [this, show ((List.range R).map fun _ : ℕ => TVal.val Q) =
        (List.range R).map fun x : ℕ => TVal.val ((fun _ : ℕ => Q) x) from rfl]
    rw [tsumList_map_val (fun _ : ℕ => Q) (List.range R), sum_map_constant Q R,
      tdiv_val_val _ _ hRQ, mul_div_cancel_left₀ Q hRQ]

/-- Witness for `runConfig_aggregation` with the constant-latency stub
`cmConst` (build 2 s, query 3 s, `CLOCKS_PER_SEC = 1`) at size 1, 1 rep. -/
theorem runConfig_aggregation_witness :
    (0 : ℕ) < ([((1 : ℕ), (1 : ℕ))] : List (ℕ × ℕ)).length ∧
      (runConfig cmConst (fun _ => 0) [(1, 1)] 0 0).1.getD 0 TVal.nan = TVal.val 2 ∧
      (runConfig cmConst (fun _ => 0) [(1, 1)] 0 0).2.1.getD 0 TVal.nan = TVal.val 3 := by
  have h := (runConfig_aggregation cmConst (fun _ => 0) [(1, 1)] 0 (by decide)).2 2 3
    (by norm_num [cmConst]) (fun r => by norm_num [cmConst]) (fun r j => by norm_num [cmConst])
    (by decide) (by decide)
  exact ⟨by decide, h.1, h.2⟩

/-- C5: each repetition of `kdtree_demo` generates a source cloud and then an
independently drawn target cloud of the same size `N` (the target is drawn
from the next `3N` fresh positions of the random source, before the build
timer starts), builds the index over the source cloud only, and issues
exactly `N` nearest-neighbour queries with `num_results = 1`, one per target
point in sequence order, accumulating the individually timed query intervals
into the repetition's query total. -/
theorem kdtree_demo_structure (cm : CostModel) (i r : ℕ) (rnd : ℕ → ℕ) (pos N : ℕ)
    (b q : TVal) :
    (kdtree_demo cm i r rnd pos N b q).cloudS = (generateRandomPointCloud rnd pos N 10).1 ∧
      (kdtree_demo cm i r rnd pos N b q).cloudT =
        (generateRandomPointCloud rnd (pos + 3 * N) N 10).1 ∧
      ((kdtree_demo cm i r rnd pos N b q).cloudS).pts.length = N ∧
      ((kdtree_demo cm i r rnd pos N b q).cloudT).pts.length = N ∧
      (kdtree_demo cm i r rnd pos N b q).index =
        buildIndex (kdtree_demo cm i r rnd pos N b q).cloudS ∧
      (kdtree_demo cm i r rnd pos N b q).events =
        ((List.range N).map fun j =>
          (⟨queryPtOf (kdtree_demo cm i r rnd pos N b q).cloudT j, 1⟩ : QueryEvent)) ∧
      ((kdtree_demo cm i r rnd pos N b q).events).length = N ∧
      (kdtree_demo cm i r rnd pos N b q).queryTimer =
        tadd q (tdiv (tdiv (TVal.val (((List.range N).map (cm.queryTicks i r)).sum))
          (TVal.val cm.cps)) (TVal.val (N : ℚ))) := by
  refine ⟨kdtree_demo_cloudS cm i r rnd pos N b q, kdtree_demo_cloudT cm i r rnd pos N b q,
    ?_, ?_, kdtree_demo_index cm i r rnd pos N b q, kdtree_demo_events cm i r rnd pos N b q,
    ?_, ?_⟩
  · rw [kdtree_demo_cloudS]
    exact genPts_length 10 rnd N pos
  · rw [kdtree_demo_cloudT]
    exact genPts_length 10 rnd N (pos + 3 * N)
  · rw [kdtree_demo_events]
    simp
  · rw [kdtree_demo_queryTimer, amortizedQuerySecs]

/-- C8: the program always returns exit status 0 (success), for every cost
model, random stream and rendering — the harness's own code produces no
other exit status. -/
theorem mainProg_exit_success (cm : CostModel) (rnd : ℕ → ℕ) (render : TVal → List Char) :
    (mainProg cm rnd render).2 = 0 := rfl

theorem splitSp_token (v : List Char) (hv : (' ' : Char) ∉ v) :
    ∀ rest : List Char, splitSp (v ++ ' ' :: rest) = v :: splitSp rest := by
  induction v with
  | nil => intro rest; simp [splitSp]
  | cons c cs ih =>
      intro rest
      have hc : c ≠ ' ' := fun hcon => hv (by simp [hcon])
      have hcs : (' ' : Char) ∉ cs := fun hcon => hv (by simp [hcon])
      simp [splitSp, hc, ih hcs rest]

theorem tokens_flatten (vs : List (List Char))
    (hv : ∀ v ∈ vs, v ≠ [] ∧ (' ' : Char) ∉ v) :
    tokens ((vs.map fun v => v ++ [' ']).flatten) = vs := by
  induction vs with
  | nil => rfl
  | cons v rest ih =>
      have h1 := hv v (List.mem_cons_self v rest)
      have h2 : ∀ w ∈ rest, w ≠ [] ∧ (' ' : Char) ∉ w := fun w hw =>
        hv w (List.mem_cons_of_mem v hw)
      have hassoc : (((v :: rest).map fun w => w ++ [' ']).flatten) =
          v ++ (' ' :: ((rest.map fun w => w ++ [' ']).flatten)) := by
        simp
      rw [hassoc, tokens, splitSp_token v h1.2, List.filter_cons]
      simp only [h1.1, ne_eq, not_false_eq_true, decide_True, if_true]
      exact congrArg (v :: ·) (ih h2)

theorem flatten_no_newline (render : TVal → List Char) (l : List TVal)
    (hr : ∀ v : TVal, ('\n' : Char) ∉ render v) :
    ('\n' : Char) ∉ ((l.map fun v => render v ++ [' ']).flatten) := by
  intro hmem
  rw [List.mem_flatten] at hmem
  obtain ⟨w, hw, hmemw⟩ := hmem
  obtain ⟨v, _, rfl⟩ := List.mem_map.mp hw
  rcases List.mem_append.mp hmemw with hcase | hcase
  · exact hr v hcase
  · simp at hcase

/-- C2: for every run over a config, the reporter emits exactly two lines:
the whole output is `line1 ++ '\n' ++ line2 ++ '\n'` with no newline inside
either line and nothing after the second terminator; the first line's
space-separated tokens are exactly the rendered values of `buildTimes` in
order, the second line's those of `queryTimes`, and each line holds exactly
`config.length` tokens (both lines empty for an empty config).  The
hypothesis states that rendered values are nonempty and free of spaces and
newlines, as holds for the decimal renderings of `operator<<` on doubles. -/
theorem reportChars_two_lines (cm : CostModel) (rnd : ℕ → ℕ) (config : List (ℕ × ℕ))
    (render : TVal → List Char)
    (hr : ∀ v : TVal, render v ≠ [] ∧ (' ' : Char) ∉ render v ∧ ('\n' : Char) ∉ render v) :
    ∃ line1 line2 : List Char,
      reportChars render (runConfig cm rnd config 0 0).1 (runConfig cm rnd config 0 0).2.1 =
          line1 ++ '\n' :: (line2 ++ ['\n']) ∧
        ('\n' : Char) ∉ line1 ∧ ('\n' : Char) ∉ line2 ∧
        tokens line1 = ((runConfig cm rnd config 0 0).1.map render) ∧
        tokens line2 = ((runConfig cm rnd config 0 0).2.1.map render) ∧
        (tokens line1).length = config.length ∧
        (tokens line2).length = config.length := by
  have htok : ∀ l : List TVal,
      tokens ((l.map fun v => render v ++ [' ']).flatten) = l.map render := by
    intro l
    have hmm : (l.map fun v => render v ++ [' ']) =
        ((l.map render).map fun w => w ++ [' ']) := by
      rw [List.map_map]
      rfl
    rw [hmm]
    apply tokens_flatten
    intro w hw
    obtain ⟨v, _, rfl⟩ := List.mem_map.mp hw
    exact ⟨(hr v).1, (hr v).2.1⟩
  refine ⟨((runConfig cm rnd config 0 0).1.map fun v => render v ++ [' ']).flatten,
    ((runConfig cm rnd config 0 0).2.1.map fun v => render v ++ [' ']).flatten,
    ?_, ?_, ?_, ?_, ?_, ?_, ?_⟩
  · simp [reportChars]
  · exact flatten_no_newline render _ fun v => (hr v).2.2
  · exact flatten_no_newline render _ fun v => (hr v).2.2
  · exact htok _
  · exact htok _
  · rw [htok _, List.length_map]
    exact (runConfig_lengths cm rnd config 0 0).1
  · rw [htok _, List.length_map]
    exact (runConfig_lengths cm rnd config 0 0).2

/-- Witness for `reportChars_two_lines` with the empty config and the
degenerate rendering `renderZero`. -/
theorem reportChars_two_lines_witness :
    ∃ line1 line2 : List Char,
      reportChars renderZero (runConfig cmZero (fun _ => 0) [] 0 0).1
          (runConfig cmZero (fun _ => 0) [] 0 0).2.1 =
          line1 ++ '\n' :: (line2 ++ ['\n']) ∧
        ('\n' : Char) ∉ line1 ∧ ('\n' : Char) ∉ line2 ∧
        tokens line1 = ((runConfig cmZero (fun _ => 0) [] 0 0).1.map renderZero) ∧
        tokens line2 = ((runConfig cmZero (fun _ => 0) [] 0 0).2.1.map renderZero) ∧
        (tokens line1).length = ([] : List (ℕ × ℕ)).length ∧
        (tokens line2).length = ([] : List (ℕ × ℕ)).length :=
  reportChars_two_lines cmZero (fun _ => 0) [] renderZero
    (by
      intro v
      refine ⟨?_, ?_, ?_⟩ <;> simp [renderZero])

end NanoflannBench
